import Mathlib

/-!
# Verification of the Instagram-to-Bluesky migration core

A shallow embedding of `src/models.py` and `src/engines.py` of the
`instagram-to-bluesky-python` repository, together with theorems settling the
specification claims about the migration job pipeline: media partitioning,
queue building with thread linkage, the durable job store, the posting state
machine, and rollback.

Conventions of the embedding:
* Python `int` becomes `Int` (or `Nat` where the source only ever produces
  non-negative values used as list indices), Python `str` becomes `String`,
  Python `None`-able values become `Option`.
* Python exceptions become `Except PyError`; a raised exception aborts the
  enclosing loop exactly as in the source (no handler exists in this core).
* The destination-platform client (`atproto`) and the filesystem are external
  collaborators; remote calls are recorded in an explicit `RemoteCall` trace
  and remote responses are supplied by an environment function.
-/

/-- Python exceptions that the embedded code can raise. -/
inductive PyError where
  /-- e.g. comparing `int` with `datetime`, or `len(None)` / `fromtimestamp(None)`. -/
  | typeError
  /-- accessing an attribute that does not exist (pydantic extra field never set). -/
  | attributeError (name : String)
  | valueError (msg : String)
  /-- list index out of range. -/
  | indexError
  | assertionError (msg : String)
  /-- pydantic validation failure (e.g. `create_strong_ref` fed a `None` cid/uri). -/
  | validationError
deriving Repr, DecidableEq

/-- Python `datetime.datetime` objects, as stored in `MigrationConfig.min_date` /
`max_date` (pydantic parses the configured value into a real `datetime`).
Only its identity matters here: comparing it against a plain `int` raises
`TypeError` in Python, which is what the embedding models. -/
structure PyDatetime where
  epochSeconds : Int
deriving Repr, DecidableEq

/-- Python `ts < d` where `ts : int` and `d : datetime` raises
`TypeError: '<' not supported between instances of 'int' and 'datetime.datetime'`. -/
def pyLtIntDatetime (_ts : Int) (_d : PyDatetime) : Except PyError Bool :=
  .error .typeError

/-- Python `ts > d` where `ts : int` and `d : datetime` likewise raises `TypeError`. -/
def pyGtIntDatetime (_ts : Int) (_d : PyDatetime) : Except PyError Bool :=
  .error .typeError

/-- `src/models.py` `MigrationConfig`. `min_date`/`max_date` are pydantic
`Optional[datetime]` fields; `media_strategy` is a `str` enum compared against
the literal `"videolast"` in `_partition_media`.

`max_videos_per_post` is NOT a declared field of `MigrationConfig`; because the
model is `extra="allow"`, the attribute exists only when the loaded
configuration happened to contain such a key. `none` models the attribute being
absent, in which case reading it raises `AttributeError`. -/
structure MigrationConfig where
  min_date : Option PyDatetime := none
  max_date : Option PyDatetime := none
  queue_dir : String
  endpoint : String
  media_strategy : String := "ordered"
  max_images_per_post : Nat := 4
  post_text_limit : Nat := 300
  post_text_truncate_suffix : String := "..."
  api_rate_limit_delay_secs : Nat := 3
  max_videos_per_post : Option Nat := none
deriving Repr, DecidableEq

/-- Reading `self.config.max_videos_per_post`: an `AttributeError` unless the
extra field was present in the loaded configuration. -/
def MigrationConfig.getMaxVideosPerPost (cfg : MigrationConfig) : Except PyError Nat :=
  match cfg.max_videos_per_post with
  | some n => .ok n
  | none => .error (.attributeError "max_videos_per_post")

/-- `src/models.py` `InstagramArchiveMedia` (the fields this core reads).
`title` is an extra field of the archive JSON read by `_figure_out_post_title`;
`none` stands for an absent or empty (falsy) caption. -/
structure InstagramArchiveMedia where
  uri : String
  creation_timestamp : Option Int := none
  title : Option String := none
deriving Repr, DecidableEq

/-- Python `s.endswith(suffix)`, translated over the character sequence
(equivalent to `String.endsWith`, but kernel-reducible for concrete inputs). -/
def pyEndsWith (s suffix : String) : Bool :=
  suffix.toList.isSuffixOf s.toList

/-- Python `s.startswith(pre)`, translated over the character sequence. -/
def pyStartsWith (s pre : String) : Bool :=
  pre.toList.isPrefixOf s.toList

/-- Media kind test used throughout `engines.py`: `entry.uri.endswith(".mp4")`. -/
def isMp4 (e : InstagramArchiveMedia) : Bool :=
  pyEndsWith e.uri ".mp4"

/-- `src/models.py` `InstagramArchivePost` (the fields this core reads). -/
structure InstagramArchivePost where
  media : List InstagramArchiveMedia
  title : Option String := some ""
  creation_timestamp : Option Int := none
deriving Repr, DecidableEq

/-- `src/models.py` `BlueSkyMigrationJobState`. -/
inductive BlueSkyMigrationJobState where
  | READY
  | PROCESSED
  | FAILED
deriving Repr, DecidableEq

/-- Rich-text annotation spans produced by the segmenter.  The byte-offset
layout computed by the external `atproto` `TextBuilder` is opaque; the ordered
list of (kind, payload) spans is what the embedding keeps. -/
inductive Facet where
  | tag (payload : String)
  | link (url : String)
deriving Repr, DecidableEq

/-- `src/models.py` `BlueSkyMigrationJob`. -/
structure BlueSkyMigrationJob where
  archive_index : Int
  text : String
  rich_text : String
  facets : List Facet := []
  created_at : String
  embed : List InstagramArchiveMedia := []
  state : BlueSkyMigrationJobState := .READY
  job_index : Nat
  root_index : Option Nat := none
  parent_index : Option Nat := none
  cid : Option String := none
  uri : Option String := none
deriving Repr, DecidableEq

/-! ## Rich-text segmenter (`parse_to_richtext`, engines.py lines 34-51)

`re.split(r"(\s+)", text)` cuts the text into maximal runs of whitespace and
non-whitespace (separators kept).  The external `client_utils.TextBuilder` is
modelled at its interface: it accumulates the concatenated text and an ordered
facet list. -/

/-- State of the modelled external `TextBuilder`. -/
structure TextBuilder where
  text : String := ""
  facets : List Facet := []
deriving Repr, DecidableEq

def TextBuilder.addText (tb : TextBuilder) (s : String) : TextBuilder :=
  { tb with text := tb.text ++ s }

def TextBuilder.addTag (tb : TextBuilder) (s : String) : TextBuilder :=
  { text := tb.text ++ s, facets := tb.facets ++ [.tag s] }

def TextBuilder.addLink (tb : TextBuilder) (s : String) : TextBuilder :=
  { text := tb.text ++ s, facets := tb.facets ++ [.link s] }

/-- Split a character list into maximal runs of whitespace / non-whitespace
characters, as `re.split(r"(\s+)", text)` does (empty boundary segments, which
`TextBuilder` treats as no-ops, are not emitted). -/
def splitRuns : List Char → List (List Char)
  | [] => []
  | c :: cs =>
    match splitRuns cs with
    | [] => [[c]]
    | run :: rest =>
      match run with
      | [] => [c] :: rest
      | d :: _ =>
        if c.isWhitespace = d.isWhitespace then (c :: run) :: rest
        else [c] :: run :: rest

/-- `parse_to_richtext` (engines.py lines 34-51): classify each segment by its
leading characters (`#` tag, `@` literal text, `http` link, otherwise text). -/
def parse_to_richtext (text : String) : TextBuilder :=
  (splitRuns text.toList).foldl
    (fun tb run =>
      let segment := String.mk run
      if pyStartsWith segment "#" then tb.addTag segment
      else if pyStartsWith segment "@" then tb.addText segment
      else if pyStartsWith segment "http" then tb.addLink segment
      else tb.addText segment)
    {}

/-! ## Media partitioner (`_partition_media`, engines.py lines 180-237) -/

/-- Loop state of `_partition_media`: the closed partitions, the open
partition, and `current_partition_type` (`some true` = "video",
`some false` = "image", `none` = not yet set). -/
structure PartState where
  partitions : List (List InstagramArchiveMedia) := []
  current : List InstagramArchiveMedia := []
  ctype : Option Bool := none
deriving Repr, DecidableEq

/-- One iteration of the partitioning loop (engines.py lines 202-231).
Reading `self.config.max_videos_per_post` happens only inside the
video-extends-video branch and raises `AttributeError` when the extra config
field is absent. -/
def partitionStep (cfg : MigrationConfig) (st : PartState) (entry : InstagramArchiveMedia) :
    Except PyError PartState :=
  let t := st.ctype.getD (isMp4 entry)
  if t && isMp4 entry then do
    let maxV ← cfg.getMaxVideosPerPost
    if st.current.length < maxV then
      pure { st with current := st.current ++ [entry], ctype := some t }
    else
      pure { partitions := st.partitions ++ [st.current], current := [entry], ctype := some t }
  else if !t && !(isMp4 entry) then
    if st.current.length < cfg.max_images_per_post then
      pure { st with current := st.current ++ [entry], ctype := some t }
    else
      pure { partitions := st.partitions ++ [st.current], current := [entry], ctype := some t }
  else
    pure { partitions := st.partitions ++ [st.current], current := [entry],
           ctype := some (isMp4 entry) }

/-- The `"videolast"` pre-pass (engines.py lines 191-199): stable reorder with
all images before all videos. -/
def videolastReorder (media : List InstagramArchiveMedia) : List InstagramArchiveMedia :=
  media.filter (fun e => !isMp4 e) ++ media.filter (fun e => isMp4 e)

/-- `InstagramArchiveParsingEngine._partition_media` (engines.py lines 180-237). -/
def _partition_media (cfg : MigrationConfig) (media : List InstagramArchiveMedia)
    (strategy : String) : Except PyError (List (List InstagramArchiveMedia)) := do
  let media := if strategy = "videolast" then videolastReorder media else media
  let st ← media.foldlM (partitionStep cfg) {}
  pure (if st.current.isEmpty then st.partitions else st.partitions ++ [st.current])

/-! ## Job queue store (`MigrationQueue`, engines.py lines 54-84)

The store directory is modelled as an unordered collection of
`(filename-index, job)` records; `glob` enumerates it in an arbitrary order, so
the round-trip theorem quantifies over every permutation of the records. -/

/-- The persisted store: one record per file `{job_index}.json`. -/
abbrev JobStore := List (Nat × BlueSkyMigrationJob)

/-- `MigrationQueue.save` (engines.py lines 81-84): overwrite the file named by
the job's `job_index`. -/
def MigrationQueue.save (store : JobStore) (job : BlueSkyMigrationJob) : JobStore :=
  store.filter (fun p => p.1 ≠ job.job_index) ++ [(job.job_index, job)]

/-- In-memory queue plus its backing store. -/
structure QueueState where
  queue : List BlueSkyMigrationJob := []
  store : JobStore := []
deriving Repr, DecidableEq

/-- `MigrationQueue.append` (engines.py lines 76-79). -/
def MigrationQueue.append (qs : QueueState) (job : BlueSkyMigrationJob) : QueueState :=
  { queue := qs.queue ++ [job], store := MigrationQueue.save qs.store job }

/-- The `key=lambda x: x.job_index` comparison used by `load`'s sort. -/
def jobIndexLe (a b : BlueSkyMigrationJob) : Prop :=
  a.job_index ≤ b.job_index

/-- Strict version of the `job_index` comparison (for uniqueness arguments). -/
def jobIndexLt (a b : BlueSkyMigrationJob) : Prop :=
  a.job_index < b.job_index

instance : DecidableRel jobIndexLe := fun a b => Nat.decLe a.job_index b.job_index

instance : IsTotal BlueSkyMigrationJob jobIndexLe :=
  ⟨fun a b => Nat.le_total a.job_index b.job_index⟩

instance : IsTrans BlueSkyMigrationJob jobIndexLe :=
  ⟨fun _ _ _ => Nat.le_trans⟩

/-- `MigrationQueue.load` (engines.py lines 63-74): deserialize every record in
the store directory (in `glob` enumeration order, given here as `files`),
append them to the in-memory queue, then sort by `job_index`.  Python's
`sorted` is a stable sort; `insertionSort` models it. -/
def MigrationQueue.load (mem : List BlueSkyMigrationJob) (files : List BlueSkyMigrationJob) :
    List BlueSkyMigrationJob :=
  List.insertionSort jobIndexLe (mem ++ files)

/-! ## Queue builder (`queue_post`, engines.py lines 239-312) -/

/-- Python `str(x)` as applied by an f-string to a possibly-`None` value. -/
def pyStr : Option String → String
  | some s => s
  | none => "None"

/-- Python `s[:k]` (also for negative `k`). -/
def pySliceTo (s : String) (k : Int) : String :=
  if k ≥ 0 then String.mk (s.toList.take k.toNat)
  else String.mk (s.toList.take (s.length - (-k).toNat))

/-- The truncation step of `queue_post` (engines.py lines 272-280). -/
def truncateText (cfg : MigrationConfig) (s : String) : String :=
  if s.length > cfg.post_text_limit then
    pySliceTo s ((cfg.post_text_limit : Int) - (cfg.post_text_truncate_suffix.length : Int))
      ++ cfg.post_text_truncate_suffix
  else s

/-- Models Python `datetime.fromtimestamp(ts).isoformat()` (external stdlib);
the exact rendering is opaque to every claim, but `fromtimestamp(None)` raises
`TypeError`. -/
def pyFromtimestampIso (ts : Option Int) : Except PyError String :=
  match ts with
  | some t => .ok (toString t)
  | none => .error .typeError

/-- Models Python `datetime.fromtimestamp(ts).strftime("%Y-%m-%d")` (external
stdlib); again `fromtimestamp(None)` raises `TypeError`. -/
def pyFromtimestampDate (ts : Option Int) : Except PyError String :=
  match ts with
  | some t => .ok (toString t)
  | none => .error .typeError

/-- Construction of one `BlueSkyMigrationJob` inside the `queue_post` loop
(engines.py lines 265-299).  When a post is not partitioned (`nParts = 1`) and
its title is `None`, `len(_post_text)` in the truncation test raises
`TypeError`; with several partitions the f-string coerces `None` to `"None"`. -/
def mkMigrationJob (cfg : MigrationConfig) (post : InstagramArchivePost) (archive_index : Int)
    (nParts : Nat) (i : Nat) (jobIndex : Nat) (partition : List InstagramArchiveMedia) :
    Except PyError BlueSkyMigrationJob := do
  let text0 ←
    if nParts > 1 then
      let t := pyStr post.title
      let j := i + 1
      pure s!"[{j}/{nParts}] {t}"
    else
      match post.title with
      | some s => pure s
      | none => Except.error PyError.typeError
  let _post_text := truncateText cfg text0
  let tb := parse_to_richtext _post_text
  let iso ← pyFromtimestampIso post.creation_timestamp
  pure {
    job_index := jobIndex
    archive_index := archive_index
    text := _post_text
    rich_text := tb.text
    facets := tb.facets
    created_at := iso ++ "Z"
    embed := partition
  }

/-- The per-partition loop of `queue_post` (engines.py lines 262-312), carrying
`thread_start` and `reply_to`.  Each job's `job_index` is the in-memory queue
length at construction time. -/
def queuePostLoop (cfg : MigrationConfig) (post : InstagramArchivePost) (archive_index : Int)
    (nParts : Nat) :
    List (List InstagramArchiveMedia) → Nat → Option Nat → Option Nat → QueueState →
    Except PyError QueueState
  | [], _, _, _, qs => .ok qs
  | partition :: rest, i, thread_start, reply_to, qs => do
    let job ← mkMigrationJob cfg post archive_index nParts i qs.queue.length partition
    let job :=
      if i = 0 then { job with root_index := none, parent_index := none }
      else { job with root_index := thread_start, parent_index := reply_to }
    let thread_start := if i = 0 then some job.job_index else thread_start
    let reply_to := some job.job_index
    queuePostLoop cfg post archive_index nParts rest (i + 1) thread_start reply_to
      (MigrationQueue.append qs job)

/-- `InstagramArchiveParsingEngine.queue_post` (engines.py lines 239-312). -/
def queue_post (cfg : MigrationConfig) (qs : QueueState) (post : InstagramArchivePost)
    (archive_index : Int) : Except PyError QueueState := do
  let media_partitions ← _partition_media cfg post.media cfg.media_strategy
  if media_partitions.length > 0 then
    queuePostLoop cfg post archive_index media_partitions.length media_partitions 0 none none qs
  else
    Except.error (PyError.assertionError "Media partitioning failed")

/-! ## Archive normalizer (`extract_posts_to_queue`, engines.py lines 118-178) -/

/-- The timestamp rectification (engines.py lines 138-143):
`post.media[0].creation_timestamp if post.media and post.media[0].creation_timestamp else None`.
A fallback timestamp of `0` is falsy in Python and therefore rejected. -/
def rectifyTimestamp (post : InstagramArchivePost) : Option Int :=
  match post.creation_timestamp with
  | some t => some t
  | none =>
    match post.media.head? with
    | some m =>
      match m.creation_timestamp with
      | some t => if t = 0 then none else some t
      | none => none
    | none => none

/-- Python truthiness of a possibly-absent string (`""` and `None` are falsy). -/
def pyTruthyStr : Option String → Bool
  | some s => !s.isEmpty
  | none => false

/-- `InstagramArchiveParsingEngine._figure_out_post_title` (engines.py lines
107-116): when the post title is `None`, adopt the first truthy media caption,
else the placeholder `"--"`; otherwise keep the post title (even if empty). -/
def _figure_out_post_title (post : InstagramArchivePost) : String :=
  match post.title with
  | none =>
    match post.media.find? (fun m => pyTruthyStr m.title) with
    | some m => pyStr m.title
    | none => "--"
  | some t => t

/-- One iteration of the normalization loop (engines.py lines 136-154): rectify
the timestamp (a still-missing timestamp is logged as "Will skip post[i]" but
execution continues), repair the title, then append the date suffix — where
`datetime.fromtimestamp(None)` raises `TypeError`. -/
def normalizePost (post : InstagramArchivePost) : Except PyError InstagramArchivePost := do
  let ts := rectifyTimestamp post
  let title := _figure_out_post_title { post with creation_timestamp := ts }
  let date ← pyFromtimestampDate ts
  pure { post with
    creation_timestamp := ts
    title := some (title ++ " (from IG, " ++ date ++ ")") }

/-- The chronological sort (engines.py line 157).  Python's `sorted` is stable;
this point is reached only when every timestamp was resolved (`normalizePost`
raised otherwise), so the `getD` default is never exercised. -/
def sortPostsByTimestamp (posts : List InstagramArchivePost) : List InstagramArchivePost :=
  List.insertionSort
    (fun a b => a.creation_timestamp.getD 0 ≤ b.creation_timestamp.getD 0) posts

/-- The date-window / media-presence / queueing loop (engines.py lines
159-176).  The `min_date`/`max_date` guards compare the `int` timestamp with a
`datetime` object, which raises `TypeError` in Python. -/
def extractLoop (cfg : MigrationConfig) :
    List InstagramArchivePost → Nat → QueueState → Except PyError QueueState
  | [], _, qs => .ok qs
  | post :: rest, index, qs => do
    let skipMin ←
      match cfg.min_date with
      | some d => pyLtIntDatetime (post.creation_timestamp.getD 0) d
      | none => pure false
    if skipMin then extractLoop cfg rest (index + 1) qs
    else do
      let stopMax ←
        match cfg.max_date with
        | some d => pyGtIntDatetime (post.creation_timestamp.getD 0) d
        | none => pure false
      if stopMax then .ok qs
      else if post.media.isEmpty then extractLoop cfg rest (index + 1) qs
      else do
        let qs' ← queue_post cfg qs post (index : Int)
        extractLoop cfg rest (index + 1) qs'

/-- `InstagramArchiveParsingEngine.extract_posts_to_queue` (engines.py lines
118-178), starting from the decoded archive posts (file loading and UTF-8
decoding are external per the spec's interface). -/
def extract_posts_to_queue (cfg : MigrationConfig) (posts : List InstagramArchivePost) :
    Except PyError QueueState := do
  let normalized ← posts.mapM normalizePost
  let sortedPosts := sortPostsByTimestamp normalized
  extractLoop cfg sortedPosts 0 {}

/-! ## Posting engine (`BlueSkyPostingEngine`, engines.py lines 315-496)

Remote interaction is recorded as a trace of `RemoteCall`s; the destination
API's create responses are supplied by an environment function `env` indexed by
the number of create calls made so far. -/

/-- A `com.atproto.repo.strongRef` as built by the external
`models.create_strong_ref`. -/
structure StrongRef where
  cid : String
  uri : String
deriving Repr, DecidableEq

/-- One remote call against the destination platform. -/
inductive RemoteCall where
  | login
  | uploadBlob (uri : String)
  | createPost (text : String) (reply : Option (StrongRef × StrongRef))
  | deletePost (uri : Option String)
deriving Repr, DecidableEq

/-- Is this call a remote upload or create (a remote write)? -/
def RemoteCall.isWrite : RemoteCall → Bool
  | .uploadBlob _ => true
  | .createPost _ _ => true
  | _ => false

/-- Python list indexing `l[i]` for the non-negative indices used here;
`IndexError` when out of range. -/
def pyListGet {α : Type} (l : List α) (i : Nat) : Except PyError α :=
  match l.get? i with
  | some x => .ok x
  | none => .error .indexError

/-- Models the external `atproto` `models.create_strong_ref`: it builds a
`ComAtprotoRepoStrongRef.Main(cid=obj.cid, uri=obj.uri)` whose `cid` and `uri`
are required string fields, so a `None` identifier raises a pydantic
validation error before any post is created. -/
def create_strong_ref (job : BlueSkyMigrationJob) : Except PyError StrongRef :=
  match job.cid, job.uri with
  | some c, some u => .ok { cid := c, uri := u }
  | _, _ => .error .validationError

/-- The reply-reference resolution block of `_post_to_bluesky` (engines.py
lines 402-423): when both `root_index` and `parent_index` are set, look the
root and parent jobs up by index in the in-memory queue and build strong refs
from their stored identifiers, in that order. -/
def resolveReply (queue : List BlueSkyMigrationJob) (job : BlueSkyMigrationJob) :
    Except PyError (Option (StrongRef × StrongRef)) :=
  match job.root_index, job.parent_index with
  | some r, some p => do
    let root_job ← pyListGet queue r
    let root_ref ← create_strong_ref root_job
    let parent_job ← pyListGet queue p
    let parent_ref ← create_strong_ref parent_job
    pure (some (root_ref, parent_ref))
  | _, _ => pure none

/-- Result of one `_post_to_bluesky` invocation: the remote calls it made (in
order, including those made before an exception), the updated store, the
updated create-call counter, and the updated job or the raised exception. -/
structure PostOutcome where
  calls : List RemoteCall
  store : JobStore
  nCreates : Nat
  result : Except PyError BlueSkyMigrationJob
deriving Repr

/-- `BlueSkyPostingEngine._post_to_bluesky` (engines.py lines 346-433).
Simulated runs return before any remote effect; a PROCESSED job is skipped; an
empty embed raises `ValueError`; media are uploaded (one blob for a video job,
one per image otherwise — the archive file reads are external and assumed to
succeed); reply references are resolved against the in-memory queue; the
create call's response fills `cid`/`uri` and the job becomes PROCESSED and is
saved. -/
def _post_to_bluesky (simulate : Bool) (queue : List BlueSkyMigrationJob) (store : JobStore)
    (env : Nat → String × String) (nCreates : Nat) (job : BlueSkyMigrationJob) : PostOutcome :=
  if simulate then
    { calls := [], store := store, nCreates := nCreates, result := .ok job }
  else if job.state = .PROCESSED then
    { calls := [], store := store, nCreates := nCreates, result := .ok job }
  else
    match job.embed with
    | [] =>
      { calls := [], store := store, nCreates := nCreates,
        result := .error (.valueError "Partition has 0 media which is not possible.") }
    | e0 :: _ =>
      let uploads : List RemoteCall :=
        if isMp4 e0 then [.uploadBlob e0.uri]
        else job.embed.map (fun e => .uploadBlob e.uri)
      let tb := parse_to_richtext job.text
      match resolveReply queue job with
      | .error e =>
        { calls := uploads, store := store, nCreates := nCreates, result := .error e }
      | .ok reply =>
        let resp := env nCreates
        let job' := { job with cid := some resp.1, uri := some resp.2, state := .PROCESSED }
        { calls := uploads ++ [.createPost tb.text reply],
          store := MigrationQueue.save store job',
          nCreates := nCreates + 1,
          result := .ok job' }

/-- State threaded through a posting or rollback run: the in-memory queue (the
source mutates job objects in place, so updates are visible to later reply
lookups), the store, the trace of remote calls, the create-call counter, and
the exception that aborted the run, if any. -/
structure RunState where
  queue : List BlueSkyMigrationJob
  store : JobStore
  calls : List RemoteCall := []
  nCreates : Nat := 0
  err : Option PyError := none
deriving Repr, DecidableEq

/-- The full-queue driving loop of `post` (engines.py lines 451-468), iterating
positions `pos, pos+1, ...` (the fuel `n` is the number of positions left;
`enumerate` fixes the iteration count up front and updates never change the
queue's length).  PROCESSED jobs are skipped; READY/FAILED jobs are attempted;
the rate-limit sleep has no observable effect; an exception aborts the run. -/
def postAllFrom (simulate : Bool) (env : Nat → String × String) :
    Nat → Nat → RunState → RunState
  | _, 0, st => st
  | pos, n + 1, st =>
    match st.queue.get? pos with
    | none => st
    | some job =>
      if job.state = .PROCESSED then
        postAllFrom simulate env (pos + 1) n st
      else if job.state = .READY ∨ job.state = .FAILED then
        let o := _post_to_bluesky simulate st.queue st.store env st.nCreates job
        match o.result with
        | .error e =>
          { st with store := o.store, calls := st.calls ++ o.calls,
                    nCreates := o.nCreates, err := some e }
        | .ok job' =>
          postAllFrom simulate env (pos + 1) n
            { st with queue := st.queue.set pos job', store := o.store,
                      calls := st.calls ++ o.calls, nCreates := o.nCreates }
      else
        postAllFrom simulate env (pos + 1) n st

/-- The single-index driving loop of `post` (engines.py lines 442-449): every
job whose `archive_index` equals the target is handed to `_post_to_bluesky`,
with no state filter at this level. -/
def postIndexFrom (simulate : Bool) (env : Nat → String × String) (target : Int) :
    Nat → Nat → RunState → RunState
  | _, 0, st => st
  | pos, n + 1, st =>
    match st.queue.get? pos with
    | none => st
    | some job =>
      if job.archive_index = target then
        let o := _post_to_bluesky simulate st.queue st.store env st.nCreates job
        match o.result with
        | .error e =>
          { st with store := o.store, calls := st.calls ++ o.calls,
                    nCreates := o.nCreates, err := some e }
        | .ok job' =>
          postIndexFrom simulate env target (pos + 1) n
            { st with queue := st.queue.set pos job', store := o.store,
                      calls := st.calls ++ o.calls, nCreates := o.nCreates }
      else
        postIndexFrom simulate env target (pos + 1) n st

/-- `BlueSkyPostingEngine.post` (engines.py lines 435-468): login when not
simulating, then either the single-index loop (`index` an `int`) or the
full-queue loop. -/
def BlueSkyPostingEngine.post (simulate : Bool) (env : Nat → String × String)
    (queue : List BlueSkyMigrationJob) (store : JobStore) (index : Option Int) : RunState :=
  let st0 : RunState :=
    { queue := queue, store := store, calls := if simulate then [] else [.login] }
  match index with
  | some i => postIndexFrom simulate env i 0 queue.length st0
  | none => postAllFrom simulate env 0 queue.length st0

/-- The rollback loop (engines.py lines 477-495): skip READY jobs; for
PROCESSED or FAILED jobs issue `delete_post(post.uri)` (note: the source guards
only the login, not the delete, behind `simulate`), set the state to READY and
save.  `cid`/`uri` are left untouched by the source. -/
def rollbackFrom (simulate : Bool) : Nat → Nat → RunState → RunState
  | _, 0, st => st
  | pos, n + 1, st =>
    match st.queue.get? pos with
    | none => st
    | some job =>
      if job.state = .READY then
        rollbackFrom simulate (pos + 1) n st
      else if job.state = .PROCESSED ∨ job.state = .FAILED then
        let job' := { job with state := .READY }
        rollbackFrom simulate (pos + 1) n
          { st with queue := st.queue.set pos job',
                    store := MigrationQueue.save st.store job',
                    calls := st.calls ++ [.deletePost job.uri] }
      else
        rollbackFrom simulate (pos + 1) n st

/-- `BlueSkyPostingEngine.rollback` (engines.py lines 470-495). -/
def BlueSkyPostingEngine.rollback (simulate : Bool) (queue : List BlueSkyMigrationJob)
    (store : JobStore) : RunState :=
  let st0 : RunState :=
    { queue := queue, store := store, calls := if simulate then [] else [.login] }
  rollbackFrom simulate 0 queue.length st0

/-! ## Shared concrete examples (used by witnesses and counterexamples) -/

/-- A sample image media item. -/
def sampleImage : InstagramArchiveMedia := { uri := "a.jpg" }

/-- A sample video media item. -/
def sampleVideo : InstagramArchiveMedia := { uri := "v.mp4" }

/-- A configuration with no `max_videos_per_post` extra key. -/
def sampleConfig : MigrationConfig := { queue_dir := "queue", endpoint := "https://bsky.social" }

/-- A configuration whose loaded file also supplied `max_videos_per_post: 1`. -/
def sampleConfigV : MigrationConfig := { sampleConfig with max_videos_per_post := some 1 }

/-- A READY single-image job at the head of the queue. -/
def sampleReadyJob : BlueSkyMigrationJob :=
  { archive_index := 0, text := "T", rich_text := "T", created_at := "100Z",
    embed := [sampleImage], state := .READY, job_index := 0 }

/-- A PROCESSED job carrying remote identifiers. -/
def sampleProcessedJob : BlueSkyMigrationJob :=
  { sampleReadyJob with state := .PROCESSED, cid := some "c", uri := some "u" }

/-- A remote environment answering every create call with fixed identifiers. -/
def sampleEnv : Nat → String × String := fun _ => ("cid", "uri")

/-! ## C1: idempotence of the posting driver -/

/-- The full-queue driving loop leaves the state untouched when every job in
the queue is already PROCESSED. -/
theorem postAllFrom_allProcessed (simulate : Bool) (env : Nat → String × String)
    (n : Nat) : ∀ (pos : Nat) (st : RunState),
    (∀ j ∈ st.queue, j.state = .PROCESSED) →
    postAllFrom simulate env pos n st = st := by
  induction n with
  | zero => intro pos st _; rfl
  | succ n ih =>
    intro pos st h
    unfold postAllFrom
    cases hg : st.queue.get? pos with
    | none => rfl
    | some job =>
      have hj : job.state = .PROCESSED := h job (List.get?_mem hg)
      simp only [hj, if_pos rfl]
      exact ih (pos + 1) st h

/-- C1: Idempotence of the posting driver.  For every queue in which every job
ends a first full (non-simulated) run of `post()` with no explicit index in
state PROCESSED, a second full run of `post()` over the resulting queue
performs zero remote upload/create calls, changes nothing, and raises nothing —
every job is skipped because an attempt against a PROCESSED job is a no-op. -/
theorem post_driver_idempotent_second_run (env env2 : Nat → String × String)
    (queue : List BlueSkyMigrationJob) (store : JobStore)
    (h : ∀ j ∈ (BlueSkyPostingEngine.post false env queue store none).queue,
      j.state = .PROCESSED) :
    ((BlueSkyPostingEngine.post false env2
        (BlueSkyPostingEngine.post false env queue store none).queue
        (BlueSkyPostingEngine.post false env queue store none).store none).calls.filter
          RemoteCall.isWrite = []) ∧
    (BlueSkyPostingEngine.post false env2
        (BlueSkyPostingEngine.post false env queue store none).queue
        (BlueSkyPostingEngine.post false env queue store none).store none).queue =
      (BlueSkyPostingEngine.post false env queue store none).queue ∧
    (BlueSkyPostingEngine.post false env2
        (BlueSkyPostingEngine.post false env queue store none).queue
        (BlueSkyPostingEngine.post false env queue store none).store none).store =
      (BlueSkyPostingEngine.post false env queue store none).store ∧
    (BlueSkyPostingEngine.post false env2
        (BlueSkyPostingEngine.post false env queue store none).queue
        (BlueSkyPostingEngine.post false env queue store none).store none).err = none := by
  set r1 := BlueSkyPostingEngine.post false env queue store none with hr1
  have hrun : BlueSkyPostingEngine.post false env2 r1.queue r1.store none =
      { queue := r1.queue, store := r1.store, calls := [.login] } := by
    show postAllFrom false env2 0 r1.queue.length
      { queue := r1.queue, store := r1.store, calls := if false then [] else [.login] } =
      { queue := r1.queue, store := r1.store, calls := [.login] }
    exact postAllFrom_allProcessed false env2 r1.queue.length 0 _ h
  rw [hrun]
  exact ⟨rfl, rfl, rfl, rfl⟩

/-- C1 witness: a concrete one-job queue whose first run processes the job, so
the second run makes no remote upload/create call. -/
theorem post_driver_idempotent_second_run_witness :
    (∀ j ∈ (BlueSkyPostingEngine.post false sampleEnv [sampleReadyJob] [] none).queue,
      j.state = .PROCESSED) ∧
    ((BlueSkyPostingEngine.post false sampleEnv
        (BlueSkyPostingEngine.post false sampleEnv [sampleReadyJob] [] none).queue
        (BlueSkyPostingEngine.post false sampleEnv [sampleReadyJob] [] none).store none).calls.filter
          RemoteCall.isWrite = []) := by
  refine ⟨by decide, ?_⟩
  exact (post_driver_idempotent_second_run sampleEnv sampleEnv [sampleReadyJob] []
    (by decide)).1

/-! ## C4: rollback -/

/-- What one rollback iteration does to a job: non-READY jobs return to READY,
everything else (including `cid`/`uri`) is untouched. -/
def rollbackOne (j : BlueSkyMigrationJob) : BlueSkyMigrationJob :=
  if j.state = .READY then j else { j with state := .READY }

/-- The remote delete issued for a job during rollback, if any. -/
def rollbackDelete (j : BlueSkyMigrationJob) : Option RemoteCall :=
  if j.state = .READY then none else some (.deletePost j.uri)

/-- The store update performed for a job during rollback. -/
def rollbackSave (s : JobStore) (j : BlueSkyMigrationJob) : JobStore :=
  if j.state = .READY then s else MigrationQueue.save s { j with state := .READY }

/-- Elementwise characterization of the rollback loop: starting at the
position after `done`, it maps `rollbackOne` over the remaining jobs, issues
one delete per non-READY job, and saves each reset job. -/
theorem rollbackFrom_spec (simulate : Bool) :
    ∀ (rest done : List BlueSkyMigrationJob) (st : RunState),
    st.queue = done ++ rest →
    rollbackFrom simulate done.length rest.length st =
      { queue := done ++ rest.map rollbackOne,
        store := rest.foldl rollbackSave st.store,
        calls := st.calls ++ rest.filterMap rollbackDelete,
        nCreates := st.nCreates, err := st.err } := by
  intro rest
  induction rest with
  | nil =>
    intro done st hq
    simp only [List.length_nil, rollbackFrom, List.map_nil, List.append_nil,
      List.filterMap_nil, List.foldl_nil]
    rw [show done = st.queue from by rw [hq]; simp]
  | cons job rest ih =>
    intro done st hq
    have hget : st.queue.get? done.length = some job := by
      rw [hq, List.get?_eq_getElem?, List.getElem?_append_right (Nat.le_refl _)]
      simp
    simp only [List.length_cons, rollbackFrom, hget]
    by_cases hR : job.state = .READY
    · rw [if_pos hR]
      have hdone : (done ++ [job]).length = done.length + 1 := by simp
      have := ih (done ++ [job]) st (by rw [hq]; simp)
      rw [hdone] at this
      rw [this]
      simp [rollbackOne, rollbackDelete, rollbackSave, hR]
    · have hPF : job.state = .PROCESSED ∨ job.state = .FAILED := by
        cases h' : job.state
        · exact absurd h' hR
        · exact Or.inl rfl
        · exact Or.inr rfl
      rw [if_neg hR, if_pos hPF]
      have hset : st.queue.set done.length { job with state := .READY } =
          done ++ { job with state := .READY } :: rest := by
        rw [hq, List.set_append, if_neg (by omega)]
        simp
      have hdone : (done ++ [{ job with state := .READY }]).length = done.length + 1 := by
        simp
      have := ih (done ++ [{ job with state := .READY }])
        { st with queue := st.queue.set done.length { job with state := .READY },
                  store := MigrationQueue.save st.store { job with state := .READY },
                  calls := st.calls ++ [.deletePost job.uri] }
        (by simp only [hset]; simp)
      rw [hdone] at this
      rw [this]
      simp [rollbackOne, rollbackDelete, rollbackSave, hR]

/-- Setting a list position to its current element is the identity. -/
theorem list_set_self {α : Type} (l : List α) (i : Nat) (h : i < l.length) :
    l.set i l[i] = l := by
  apply List.ext_getElem
  · simp
  · intro n h1 h2
    rw [List.getElem_set]
    split
    · next heq => subst heq; rfl
    · rfl

/-- C4 counterexample: the claim that `rollback()` clears `cid`/`uri` is false.
Rolling back a queue holding one PROCESSED job with identifiers `"c"`/`"u"`
leaves the identifiers in place while resetting the state to READY, so the
claimed invariant "cid/uri are null while state is not PROCESSED" fails. -/
theorem rollback_clears_identifiers_cex :
    ((BlueSkyPostingEngine.rollback false [sampleProcessedJob] []).queue.map
        (fun j => (j.state, j.cid, j.uri)) =
      [(.READY, some "c", some "u")]) ∧
    ¬ (∀ j ∈ (BlueSkyPostingEngine.rollback false [sampleProcessedJob] []).queue,
        j.state ≠ .PROCESSED → j.cid = none ∧ j.uri = none) := by
  exact ⟨rfl, by decide⟩

/-- C4 (amended): for every job in state PROCESSED or FAILED, `rollback()`
issues a remote delete using the job's stored `uri`, resets the job's state to
READY and persists it via `save`; jobs in state READY are skipped unchanged;
`cid` and `uri` are left untouched (not cleared). -/
theorem rollback_resets_state_keeps_identifiers (simulate : Bool)
    (queue : List BlueSkyMigrationJob) (store : JobStore) :
    (BlueSkyPostingEngine.rollback simulate queue store).queue =
      queue.map (fun j => if j.state = .READY then j else { j with state := .READY }) ∧
    (BlueSkyPostingEngine.rollback simulate queue store).calls =
      (if simulate then [] else [.login]) ++
        queue.filterMap (fun j =>
          if j.state = .READY then none else some (.deletePost j.uri)) ∧
    (BlueSkyPostingEngine.rollback simulate queue store).store =
      queue.foldl (fun s j =>
        if j.state = .READY then s else MigrationQueue.save s { j with state := .READY })
        store ∧
    (BlueSkyPostingEngine.rollback simulate queue store).err = none := by
  have h := rollbackFrom_spec simulate queue []
    { queue := queue, store := store, calls := if simulate then [] else [.login] }
    (by simp)
  have hrun : BlueSkyPostingEngine.rollback simulate queue store =
      { queue := [] ++ List.map rollbackOne queue,
        store := List.foldl rollbackSave store queue,
        calls := (if simulate then [] else [RemoteCall.login]) ++
          List.filterMap rollbackDelete queue,
        nCreates := 0, err := none } := h
  rw [hrun]
  exact ⟨rfl, rfl, rfl, rfl⟩

/-! ## C6: single-index mode -/

/-- C6 counterexample: `post(index=0)` on a queue whose only job matches
`archive_index = 0` but is already PROCESSED does not run the posting path:
the job is left unchanged (state, `cid`, `uri` untouched) and no remote
upload/create call is made, because `_post_to_bluesky` itself skips PROCESSED
jobs even when the driver-level skip was bypassed. -/
theorem post_single_index_reattempts_processed_cex :
    (BlueSkyPostingEngine.post false sampleEnv [sampleProcessedJob] [] (some 0)).queue =
      [sampleProcessedJob] ∧
    (BlueSkyPostingEngine.post false sampleEnv [sampleProcessedJob] [] (some 0)).calls.filter
      RemoteCall.isWrite = [] ∧
    sampleProcessedJob.archive_index = 0 ∧
    sampleProcessedJob.state = .PROCESSED := by
  exact ⟨by decide, by decide, rfl, rfl⟩

/-- The single-index loop leaves the state untouched when every job whose
`archive_index` matches the target is already PROCESSED (non-simulated run):
the per-job skip inside `_post_to_bluesky` still applies. -/
theorem postIndexFrom_matching_processed (env : Nat → String × String) (target : Int)
    (n : Nat) : ∀ (pos : Nat) (st : RunState),
    (∀ j ∈ st.queue, j.archive_index = target → j.state = .PROCESSED) →
    postIndexFrom false env target pos n st = st := by
  induction n with
  | zero => intro pos st _; rfl
  | succ n ih =>
    intro pos st h
    unfold postIndexFrom
    cases hg : st.queue.get? pos with
    | none => rfl
    | some job =>
      by_cases hm : job.archive_index = target
      · have hj : job.state = .PROCESSED := h job (List.get?_mem hg) hm
        have hlt : pos < st.queue.length := by
          by_contra hge
          rw [List.get?_eq_getElem?, List.getElem?_eq_none (by omega)] at hg
          exact Option.noConfusion hg
        have hg' : st.queue[pos]? = some job := by
          rw [← List.get?_eq_getElem?]; exact hg
        have hjob : st.queue[pos] = job := by
          rw [List.getElem?_eq_getElem hlt] at hg'
          exact Option.some.inj hg'
        have ho : _post_to_bluesky false st.queue st.store env st.nCreates job =
            { calls := [], store := st.store, nCreates := st.nCreates,
              result := .ok job } := by
          unfold _post_to_bluesky
          rw [hj]
          rfl
        have hset : st.queue.set pos job = st.queue := by
          rw [← hjob]
          exact list_set_self st.queue pos hlt
        simp only [if_pos hm, ho, hset, List.append_nil]
        exact ih (pos + 1) st h
      · simp only [if_neg hm]
        exact ih (pos + 1) st h

/-- C6 (amended): `post(index=value)` hands every job whose `archive_index`
equals the value to the posting routine regardless of the driver-level
skip-if-processed rule, but the routine itself still skips PROCESSED jobs, so
a matching job already PROCESSED is not re-posted: whenever every matching job
is PROCESSED, the non-simulated call performs zero remote upload/create calls,
leaves queue and store unchanged and raises nothing. -/
theorem post_single_index_processed_noop (env : Nat → String × String)
    (queue : List BlueSkyMigrationJob) (store : JobStore) (value : Int)
    (h : ∀ j ∈ queue, j.archive_index = value → j.state = .PROCESSED) :
    (BlueSkyPostingEngine.post false env queue store (some value)).queue = queue ∧
    (BlueSkyPostingEngine.post false env queue store (some value)).store = store ∧
    (BlueSkyPostingEngine.post false env queue store (some value)).calls.filter
      RemoteCall.isWrite = [] ∧
    (BlueSkyPostingEngine.post false env queue store (some value)).err = none := by
  have hrun : BlueSkyPostingEngine.post false env queue store (some value) =
      ({ queue := queue, store := store, calls := [.login] } : RunState) := by
    show postIndexFrom false env value 0 queue.length
      { queue := queue, store := store, calls := if false then [] else [.login] } = _
    exact postIndexFrom_matching_processed env value queue.length 0 _ h
  rw [hrun]
  exact ⟨rfl, rfl, rfl, rfl⟩

/-- C6 witness: the amended statement applied to the concrete PROCESSED job of
the counterexample. -/
theorem post_single_index_processed_noop_witness :
    (∀ j ∈ [sampleProcessedJob], j.archive_index = 0 → j.state = .PROCESSED) ∧
    (BlueSkyPostingEngine.post false sampleEnv [sampleProcessedJob] [] (some 0)).queue =
      [sampleProcessedJob] := by
  exact ⟨by decide, (post_single_index_processed_noop sampleEnv [sampleProcessedJob] [] 0
    (by decide)).1⟩

/-! ## C7: date window filtering (code bug) -/

/-- A post dated day `d` with one image and a title. -/
def windowPost (d : Int) : InstagramArchivePost :=
  { media := [sampleImage], title := some "T", creation_timestamp := some (86400 * d) }

/-- A configuration with an inclusive day-2 .. day-4 window (pydantic parses
the configured values into `datetime` objects). -/
def windowConfig : MigrationConfig :=
  { sampleConfig with min_date := some ⟨86400 * 2⟩, max_date := some ⟨86400 * 4⟩ }

/-- C7: the date-window guards compare the post's `int` epoch timestamp
against the `datetime` held in the configuration
(`post.creation_timestamp < self.config.min_date`, engines.py line 160), which
raises `TypeError` in Python.  On the spec's own example — posts dated day
1..5 with `min_date` = day 2 and `max_date` = day 4 — the run aborts with
`TypeError` at the first post instead of queueing the posts for days 2, 3, 4. -/
theorem date_window_raises_typeerror :
    extract_posts_to_queue windowConfig
      [windowPost 1, windowPost 2, windowPost 3, windowPost 4, windowPost 5] =
      .error .typeError := by
  rfl

/-! ## C8: missing-timestamp handling (code bug) -/

/-- A post with no timestamp at all (no media to fall back on). -/
def timestamplessPost : InstagramArchivePost :=
  { media := [], title := some "x", creation_timestamp := none }

/-- C8: the media-timestamp fallback itself works (first conjunct), but a post
whose timestamp is still `None` after the fallback is not skipped: right after
logging "Will skip post[i]", line 153 calls `datetime.fromtimestamp(None)`,
which raises `TypeError` and aborts the whole run — the remaining posts are
never normalized (second conjunct, where a perfectly good post follows the
timestamp-less one). -/
theorem missing_timestamp_aborts_run :
    (normalizePost
        { media := [{ uri := "a.jpg", creation_timestamp := some 5 }],
          title := some "t", creation_timestamp := none }).map
      (fun p => p.creation_timestamp) = Except.ok (some 5) ∧
    extract_posts_to_queue sampleConfig [timestamplessPost, windowPost 2] =
      .error .typeError := by
  exact ⟨rfl, rfl⟩

/-! ## Characterization of one partitioning step -/

/-- Bind on a successful `Except` computation. -/
theorem except_bind_ok {e a b : Type} (x : a) (f : a → Except e b) :
    ((Except.ok x : Except e a) >>= f) = f x := rfl

/-- Bind on a failed `Except` computation. -/
theorem except_bind_error {e a b : Type} (err : e) (f : a → Except e b) :
    ((Except.error err : Except e a) >>= f) = .error err := rfl

/-- `partitionStep` on an image entry: extend or close the open batch when the
current type is image (or unset), switch batch type when it is video.  The
image branches read only `max_images_per_post`, which always exists. -/
theorem partitionStep_image (cfg : MigrationConfig) (st : PartState)
    (e : InstagramArchiveMedia) (h : isMp4 e = false) :
    partitionStep cfg st e = .ok (
      match st.ctype with
      | some true =>
        { partitions := st.partitions ++ [st.current], current := [e], ctype := some false }
      | _ =>
        if st.current.length < cfg.max_images_per_post then
          { partitions := st.partitions, current := st.current ++ [e], ctype := some false }
        else
          { partitions := st.partitions ++ [st.current], current := [e], ctype := some false }) := by
  cases hc : st.ctype with
  | none =>
    simp [partitionStep, hc, h]
    split <;> rfl
  | some t =>
    cases t with
    | false =>
      simp [partitionStep, hc, h]
      split <;> rfl
    | true =>
      simp [partitionStep, hc, h]
      exact rfl

/-- `partitionStep` on a video entry while the current type is image: the
type-switch branch fires and `max_videos_per_post` is not read. -/
theorem partitionStep_video_switch (cfg : MigrationConfig) (st : PartState)
    (e : InstagramArchiveMedia) (h : isMp4 e = true) (hc : st.ctype = some false) :
    partitionStep cfg st e = .ok
      { partitions := st.partitions ++ [st.current], current := [e], ctype := some true } := by
  simp [partitionStep, hc, h]
  exact rfl

/-- `partitionStep` on a video entry while the current type is video or unset:
the video branch fires and reads `self.config.max_videos_per_post`, raising
`AttributeError` when the attribute is absent. -/
theorem partitionStep_video_open (cfg : MigrationConfig) (st : PartState)
    (e : InstagramArchiveMedia) (h : isMp4 e = true)
    (hc : st.ctype = none ∨ st.ctype = some true) :
    partitionStep cfg st e =
      match cfg.max_videos_per_post with
      | none => .error (.attributeError "max_videos_per_post")
      | some v =>
        .ok (if st.current.length < v then
          { partitions := st.partitions, current := st.current ++ [e], ctype := some true }
        else
          { partitions := st.partitions ++ [st.current], current := [e], ctype := some true }) := by
  cases hv : cfg.max_videos_per_post with
  | none =>
    rcases hc with hc | hc <;>
      simp [partitionStep, hc, h, MigrationConfig.getMaxVideosPerPost, hv, except_bind_error]
  | some v =>
    rcases hc with hc | hc <;>
    · simp [partitionStep, hc, h, MigrationConfig.getMaxVideosPerPost, hv, except_bind_ok]
      split <;> exact rfl

/-! ## C10: the missing `max_videos_per_post` attribute -/

/-- When the partitioning walk reads `self.config.max_videos_per_post`:
scanning with the running `current_partition_type`, the attribute is read
exactly when a video entry is processed while the current type is video —
that is, at a leading video (the type is then set to video before the branch
test) or at a video immediately following another video.  A video that follows
an image only triggers the type-switch branch, which does not read the limit. -/
def readsMaxVideos : Option Bool → List InstagramArchiveMedia → Bool
  | _, [] => false
  | none, e :: rest => if isMp4 e then true else readsMaxVideos (some false) rest
  | some t, e :: rest =>
    if isMp4 e then (if t then true else readsMaxVideos (some true) rest)
    else readsMaxVideos (some false) rest

/-- With no `max_videos_per_post` in the configuration, the partitioning fold
raises `AttributeError` as soon as the walk would read the attribute. -/
theorem partitionFold_error_of_reads (cfg : MigrationConfig)
    (hnone : cfg.max_videos_per_post = none) :
    ∀ (media : List InstagramArchiveMedia) (st : PartState),
    readsMaxVideos st.ctype media = true →
    media.foldlM (partitionStep cfg) st = .error (.attributeError "max_videos_per_post") := by
  intro media
  induction media with
  | nil =>
    intro st h
    rw [show readsMaxVideos st.ctype [] = false from by cases st.ctype <;> rfl] at h
    exact Bool.noConfusion h
  | cons e rest ih =>
    intro st h
    rw [List.foldlM_cons]
    by_cases hmp4 : isMp4 e
    · by_cases hopen : st.ctype = none ∨ st.ctype = some true
      · rw [partitionStep_video_open cfg st e hmp4 hopen, hnone]
        exact rfl
      · have hc : st.ctype = some false := by
          cases hct : st.ctype with
          | none => exact absurd (Or.inl hct) hopen
          | some t => cases t with
            | true => exact absurd (Or.inr hct) hopen
            | false => rfl
        rw [partitionStep_video_switch cfg st e hmp4 hc]
        have h' : readsMaxVideos (some true) rest = true := by
          rw [hc] at h
          unfold readsMaxVideos at h
          rw [hmp4] at h
          simpa using h
        exact ih _ h'
    · have hmp4' : isMp4 e = false := by simpa using hmp4
      rw [partitionStep_image cfg st e hmp4']
      have h' : readsMaxVideos (some false) rest = true := by
        cases hct : st.ctype with
        | none =>
          rw [hct] at h
          unfold readsMaxVideos at h
          rw [hmp4'] at h
          simpa using h
        | some t =>
          rw [hct] at h
          unfold readsMaxVideos at h
          rw [hmp4'] at h
          simpa using h
      cases hct : st.ctype with
      | none =>
        simp only [except_bind_ok]
        by_cases hlen : st.current.length < cfg.max_images_per_post
        · rw [if_pos hlen]
          exact ih _ h'
        · rw [if_neg hlen]
          exact ih _ h'
      | some t =>
        cases t with
        | false =>
          simp only [except_bind_ok]
          by_cases hlen : st.current.length < cfg.max_images_per_post
          · rw [if_pos hlen]
            exact ih _ h'
          · rw [if_neg hlen]
            exact ih _ h'
        | true =>
          exact ih _ h'

/-- C10 counterexample: the claim that any media list containing a video makes
`_partition_media` raise `AttributeError` is false — with a configuration
lacking `max_videos_per_post`, the list `[image, video]` partitions
successfully into two batches, because the video only triggers the type-switch
branch, which never reads the attribute. -/
theorem partition_missing_max_videos_cex :
    sampleConfig.max_videos_per_post = none ∧
    _partition_media sampleConfig [sampleImage, sampleVideo] "ordered" =
      .ok [[sampleImage], [sampleVideo]] := by
  exact ⟨rfl, rfl⟩

/-- C10 (amended): with no `max_videos_per_post` key in the configuration,
`_partition_media` raises `AttributeError` whenever the partitioning walk
appends a video to an open video batch — i.e. whenever the
(strategy-reordered) media list starts with a video or has a video immediately
following another video (`readsMaxVideos`); a video preceded by an image only
switches the batch type and raises nothing. -/
theorem partition_missing_max_videos_attributeerror (cfg : MigrationConfig)
    (media : List InstagramArchiveMedia) (strategy : String)
    (hnone : cfg.max_videos_per_post = none)
    (htrig : readsMaxVideos none
      (if strategy = "videolast" then videolastReorder media else media) = true) :
    _partition_media cfg media strategy = .error (.attributeError "max_videos_per_post") := by
  have hfold := partitionFold_error_of_reads cfg hnone
    (if strategy = "videolast" then videolastReorder media else media) {} htrig
  simp only [_partition_media]
  rw [hfold]
  exact rfl

/-- C10 witness: a lone video triggers the attribute read and the error. -/
theorem partition_missing_max_videos_attributeerror_witness :
    (sampleConfig.max_videos_per_post = none ∧
      readsMaxVideos none
        (if "ordered" = "videolast" then videolastReorder [sampleVideo]
         else [sampleVideo]) = true) ∧
    _partition_media sampleConfig [sampleVideo] "ordered" =
      .error (.attributeError "max_videos_per_post") := by
  exact ⟨⟨rfl, by decide⟩,
    partition_missing_max_videos_attributeerror sampleConfig [sampleVideo] "ordered" rfl
      (by decide)⟩

/-! ## C5: orphaned-reply prevention -/

/-- Is this call a remote create-post call? -/
def RemoteCall.isCreate : RemoteCall → Bool
  | .createPost _ _ => true
  | _ => false

/-- When the root or parent job found in the queue lacks `cid` or `uri`, the
reply-resolution block raises (a pydantic validation error from
`create_strong_ref`, or an earlier error from the root lookup chain). -/
theorem resolveReply_error (queue : List BlueSkyMigrationJob) (job : BlueSkyMigrationJob)
    (r p : Nat) (hroot : job.root_index = some r) (hparent : job.parent_index = some p)
    (hbad : (∃ rj, queue.get? r = some rj ∧ (rj.cid = none ∨ rj.uri = none)) ∨
            (∃ pj, queue.get? p = some pj ∧ (pj.cid = none ∨ pj.uri = none))) :
    ∃ e, resolveReply queue job = .error e := by
  have hstep : resolveReply queue job = (do
      let root_job ← pyListGet queue r
      let root_ref ← create_strong_ref root_job
      let parent_job ← pyListGet queue p
      let parent_ref ← create_strong_ref parent_job
      pure (some (root_ref, parent_ref))) := by
    unfold resolveReply
    rw [hroot, hparent]
  rw [hstep]
  rcases hbad with ⟨rj, hrj, hb⟩ | ⟨pj, hpj, hb⟩
  · have hget : pyListGet queue r = .ok rj := by
      unfold pyListGet
      rw [hrj]
    have hcsr : create_strong_ref rj = .error .validationError := by
      unfold create_strong_ref
      rcases hb with hb | hb
      · rw [hb]
      · rw [hb]
        cases rj.cid <;> exact rfl
    rw [hget, except_bind_ok, hcsr, except_bind_error]
    exact ⟨_, rfl⟩
  · cases hq : pyListGet queue r with
    | error e =>
      rw [except_bind_error]
      exact ⟨e, rfl⟩
    | ok rj =>
      rw [except_bind_ok]
      cases hcr : create_strong_ref rj with
      | error e =>
        rw [except_bind_error]
        exact ⟨e, rfl⟩
      | ok root_ref =>
        rw [except_bind_ok]
        have hget : pyListGet queue p = .ok pj := by
          unfold pyListGet
          rw [hpj]
        have hcsp : create_strong_ref pj = .error .validationError := by
          unfold create_strong_ref
          rcases hb with hb | hb
          · rw [hb]
          · rw [hb]
            cases pj.cid <;> exact rfl
        rw [hget, except_bind_ok, hcsp, except_bind_error]
        exact ⟨_, rfl⟩

/-- C5: for every non-simulated posting attempt on a non-PROCESSED job with
non-null `root_index` and `parent_index`, if the root or parent job looked up
by index in the in-memory queue has a null `cid` or `uri`, the attempt raises
before any remote create-post call is made: the outcome is an error, no call
in the trace is a create call, and neither the store nor the create counter
changes — a reply is never silently posted with an unidentified parent or
root. -/
theorem reply_missing_identifiers_no_create (queue : List BlueSkyMigrationJob)
    (store : JobStore) (env : Nat → String × String) (n : Nat)
    (job : BlueSkyMigrationJob) (r p : Nat)
    (hroot : job.root_index = some r) (hparent : job.parent_index = some p)
    (hstate : job.state ≠ .PROCESSED)
    (hbad : (∃ rj, queue.get? r = some rj ∧ (rj.cid = none ∨ rj.uri = none)) ∨
            (∃ pj, queue.get? p = some pj ∧ (pj.cid = none ∨ pj.uri = none))) :
    (∃ e, (_post_to_bluesky false queue store env n job).result = .error e) ∧
    (∀ c ∈ (_post_to_bluesky false queue store env n job).calls, c.isCreate = false) ∧
    (_post_to_bluesky false queue store env n job).store = store ∧
    (_post_to_bluesky false queue store env n job).nCreates = n := by
  obtain ⟨err, herr⟩ := resolveReply_error queue job r p hroot hparent hbad
  cases hembed : job.embed with
  | nil =>
    have hb0 : _post_to_bluesky false queue store env n job =
        { calls := [], store := store, nCreates := n,
          result := .error (.valueError "Partition has 0 media which is not possible.") } := by
      unfold _post_to_bluesky
      rw [if_neg Bool.false_ne_true, if_neg hstate, hembed]
    rw [hb0]
    exact ⟨⟨_, rfl⟩, by intro c hc; exact absurd hc (List.not_mem_nil c), rfl, rfl⟩
  | cons e0 tail =>
    have hb1 : _post_to_bluesky false queue store env n job =
        { calls := if isMp4 e0 then [.uploadBlob e0.uri]
                   else (e0 :: tail).map (fun e => .uploadBlob e.uri),
          store := store, nCreates := n, result := .error err } := by
      unfold _post_to_bluesky
      rw [if_neg Bool.false_ne_true, if_neg hstate, hembed]
      simp only [herr]
    rw [hb1]
    refine ⟨⟨err, rfl⟩, ?_, rfl, rfl⟩
    intro c hc
    by_cases hv : isMp4 e0
    · rw [if_pos hv] at hc
      rcases List.mem_singleton.mp hc with rfl
      rfl
    · rw [if_neg hv] at hc
      obtain ⟨m, _, rfl⟩ := List.mem_map.mp hc
      rfl

/-- A would-be thread-root job that was never posted: no `cid`/`uri` yet. -/
def sampleBrokenRoot : BlueSkyMigrationJob :=
  { archive_index := 0, text := "R", rich_text := "R", created_at := "0Z",
    embed := [sampleImage], state := .READY, job_index := 0 }

/-- A reply job pointing at queue position 0 as both root and parent. -/
def sampleReplyJob : BlueSkyMigrationJob :=
  { archive_index := 0, text := "T2", rich_text := "T2", created_at := "0Z",
    embed := [sampleImage], state := .READY, job_index := 1,
    root_index := some 0, parent_index := some 0 }

/-- C5 witness: posting the reply while its root/parent (queue position 0)
still lacks identifiers fails without a create call. -/
theorem reply_missing_identifiers_no_create_witness :
    (sampleReplyJob.root_index = some 0 ∧ sampleReplyJob.parent_index = some 0 ∧
      sampleReplyJob.state ≠ .PROCESSED ∧
      [sampleBrokenRoot].get? 0 = some sampleBrokenRoot ∧ sampleBrokenRoot.cid = none) ∧
    (∃ e, (_post_to_bluesky false [sampleBrokenRoot] [] sampleEnv 0 sampleReplyJob).result =
      .error e) ∧
    (∀ c ∈ (_post_to_bluesky false [sampleBrokenRoot] [] sampleEnv 0 sampleReplyJob).calls,
      c.isCreate = false) := by
  refine ⟨⟨rfl, rfl, by decide, rfl, rfl⟩, ?_, ?_⟩
  · exact (reply_missing_identifiers_no_create [sampleBrokenRoot] [] sampleEnv 0
      sampleReplyJob 0 0 rfl rfl (by decide)
      (Or.inl ⟨sampleBrokenRoot, rfl, Or.inl rfl⟩)).1
  · exact (reply_missing_identifiers_no_create [sampleBrokenRoot] [] sampleEnv 0
      sampleReplyJob 0 0 rfl rfl (by decide)
      (Or.inl ⟨sampleBrokenRoot, rfl, Or.inl rfl⟩)).2.1

/-! ## C9: store round-trip -/

/-- Appending jobs with pairwise-fresh `job_index` values never overwrites an
existing record: the store grows by exactly one record per job, in order. -/
theorem append_fold_store (jobs : List BlueSkyMigrationJob) :
    ∀ (qs : QueueState),
    (jobs.map (fun j => j.job_index)).Nodup →
    (∀ k ∈ qs.store.map Prod.fst, k ∉ jobs.map (fun j => j.job_index)) →
    (jobs.foldl MigrationQueue.append qs).store =
      qs.store ++ jobs.map (fun j => (j.job_index, j)) := by
  induction jobs with
  | nil => intro qs _ _; simp
  | cons j rest ih =>
    intro qs hnodup hdisj
    rw [List.foldl_cons]
    have hsave : MigrationQueue.save qs.store j = qs.store ++ [(j.job_index, j)] := by
      unfold MigrationQueue.save
      congr 1
      apply List.filter_eq_self.mpr
      intro p hp
      have hmem : p.1 ∈ qs.store.map Prod.fst := List.mem_map_of_mem _ hp
      have hne : p.1 ≠ j.job_index := by
        intro heq
        exact hdisj p.1 hmem
          (heq ▸ List.mem_map_of_mem _ (List.mem_cons_self j rest))
      simpa using hne
    have hdisj' : ∀ k ∈ (MigrationQueue.append qs j).store.map Prod.fst,
        k ∉ rest.map (fun x => x.job_index) := by
      intro k hk
      have : (MigrationQueue.append qs j).store = qs.store ++ [(j.job_index, j)] := hsave
      rw [this, List.map_append, List.mem_append] at hk
      rcases hk with hk | hk
      · intro hmem
        exact hdisj k hk (List.mem_cons_of_mem _ hmem)
      · rcases List.mem_singleton.mp hk with rfl
        exact (List.nodup_cons.mp hnodup).1
    have := ih (MigrationQueue.append qs j) (List.nodup_cons.mp hnodup).2 hdisj'
    rw [this]
    have hstep : (MigrationQueue.append qs j).store = qs.store ++ [(j.job_index, j)] := hsave
    rw [hstep]
    simp

/-- C9: for every sequence of jobs with dense `job_index` values appended via
`append()` into an empty store, `load()` on a fresh queue instance over the
same store location reconstructs the appended sequence exactly (same records,
sorted by `job_index`), whatever order `glob` enumerates the record files in;
and `load()` on an empty store yields an empty queue rather than an error. -/
theorem store_round_trip (jobs files : List BlueSkyMigrationJob)
    (hdense : ∀ (i : Nat) (h : i < jobs.length), jobs[i].job_index = i)
    (hperm : files.Perm ((jobs.foldl MigrationQueue.append {}).store.map Prod.snd)) :
    MigrationQueue.load [] files = jobs ∧
    MigrationQueue.load [] ([] : List BlueSkyMigrationJob) = [] := by
  constructor
  · have hidx : jobs.map (fun j => j.job_index) = List.range jobs.length := by
      apply List.ext_getElem
      · simp
      · intro i h1 h2
        simp only [List.getElem_map, List.getElem_range]
        exact hdense i (by simpa using h1)
    have hnodup : (jobs.map (fun j => j.job_index)).Nodup := by
      rw [hidx]
      exact List.nodup_range jobs.length
    have hstore : (jobs.foldl MigrationQueue.append {}).store =
        jobs.map (fun j => (j.job_index, j)) := by
      have := append_fold_store jobs {} hnodup (by intro k hk; simp at hk)
      simpa using this
    have hsnd : (jobs.foldl MigrationQueue.append {}).store.map Prod.snd = jobs := by
      rw [hstore, List.map_map]
      have hcomp : (Prod.snd ∘ fun j : BlueSkyMigrationJob => (j.job_index, j)) = id := by
        funext j
        rfl
      rw [hcomp, List.map_id]
    have hperm2 : List.insertionSort jobIndexLe files |>.Perm jobs :=
      (List.perm_insertionSort jobIndexLe files).trans (hperm.trans (by rw [hsnd]))
    have hsorted_le : (List.insertionSort jobIndexLe files).Sorted jobIndexLe :=
      List.sorted_insertionSort jobIndexLe files
    have hpairne : (List.insertionSort jobIndexLe files).Pairwise
        (fun a b => a.job_index ≠ b.job_index) := by
      have hmapperm : (List.insertionSort jobIndexLe files).map (fun j => j.job_index) |>.Perm
          (jobs.map (fun j => j.job_index)) := hperm2.map _
      have : ((List.insertionSort jobIndexLe files).map (fun j => j.job_index)).Nodup := by
        rw [hmapperm.nodup_iff]
        exact hnodup
      exact List.pairwise_map.mp this
    have hsorted_lt : (List.insertionSort jobIndexLe files).Pairwise jobIndexLt :=
      (hsorted_le.and hpairne).imp
        (fun h => Nat.lt_of_le_of_ne h.1 h.2)
    have hsorted_jobs : jobs.Pairwise jobIndexLt := by
      rw [List.pairwise_iff_getElem]
      intro i j hi hj hij
      show jobs[i].job_index < jobs[j].job_index
      rw [hdense i hi, hdense j hj]
      exact hij
    haveI : IsAntisymm BlueSkyMigrationJob jobIndexLt :=
      ⟨fun a b h1 h2 => absurd h1 (Nat.lt_asymm h2)⟩
    have : List.insertionSort jobIndexLe files = jobs :=
      List.eq_of_perm_of_sorted hperm2 hsorted_lt hsorted_jobs
    show List.insertionSort jobIndexLe ([] ++ files) = jobs
    rw [List.nil_append]
    exact this
  · rfl

/-- A first job with `job_index = 0`. -/
def sampleJob0 : BlueSkyMigrationJob :=
  { archive_index := 0, text := "a", rich_text := "a", created_at := "0Z",
    embed := [sampleImage], job_index := 0 }

/-- A second job with `job_index = 1`, replying to the first. -/
def sampleJob1 : BlueSkyMigrationJob :=
  { archive_index := 0, text := "b", rich_text := "b", created_at := "0Z",
    embed := [sampleImage], job_index := 1, root_index := some 0, parent_index := some 0 }

/-- C9 witness: two appended jobs reload identically even when `glob`
enumerates their files in reverse order. -/
theorem store_round_trip_witness :
    (∀ (i : Nat) (h : i < ([sampleJob0, sampleJob1] : List BlueSkyMigrationJob).length),
      ([sampleJob0, sampleJob1] : List BlueSkyMigrationJob)[i].job_index = i) ∧
    MigrationQueue.load [] [sampleJob1, sampleJob0] = [sampleJob0, sampleJob1] := by
  have hdense : ∀ (i : Nat)
      (h : i < ([sampleJob0, sampleJob1] : List BlueSkyMigrationJob).length),
      ([sampleJob0, sampleJob1] : List BlueSkyMigrationJob)[i].job_index = i := by
    intro i h
    match i with
    | 0 => rfl
    | 1 => rfl
    | n + 2 => exact absurd h (by simp)
  refine ⟨hdense, ?_⟩
  exact (store_round_trip [sampleJob0, sampleJob1] [sampleJob1, sampleJob0] hdense
    (by decide)).1

/-! ## C3: thread linkage -/

/-- With a (post-normalization) string title and a resolved timestamp, job
construction always succeeds, assigning the given `job_index` and batch and
leaving `root_index`/`parent_index` at their default `None`. -/
theorem mkMigrationJob_ok (cfg : MigrationConfig) (post : InstagramArchivePost)
    (ai : Int) (nParts i jobIndex : Nat) (partition : List InstagramArchiveMedia)
    (t : String) (ts : Int)
    (htitle : post.title = some t) (hts : post.creation_timestamp = some ts) :
    ∃ job, mkMigrationJob cfg post ai nParts i jobIndex partition = .ok job ∧
      job.job_index = jobIndex ∧ job.embed = partition ∧
      job.root_index = none ∧ job.parent_index = none := by
  unfold mkMigrationJob
  have hiso : pyFromtimestampIso post.creation_timestamp = .ok (toString ts) := by
    rw [hts]
    rfl
  by_cases hn : nParts > 1
  · rw [if_pos hn]
    simp only [except_bind_ok, hiso]
    exact ⟨_, rfl, rfl, rfl, rfl, rfl⟩
  · rw [if_neg hn, htitle]
    simp only [except_bind_ok, hiso]
    exact ⟨_, rfl, rfl, rfl, rfl, rfl⟩

/-- The job built at step `i ≥ 1` of the `queue_post` loop, with its reply
links filled in from the remembered thread head and the previous job. -/
def linkedJob (job : BlueSkyMigrationJob) (root0 prev : Nat) : BlueSkyMigrationJob :=
  { job with root_index := some root0, parent_index := some prev }

/-- The thread-linkage invariant of the `queue_post` loop from batch 1 onward:
every job built at step `i ≥ 1` carries `root_index = root0` (the remembered
head) and `parent_index` pointing at the immediately preceding job, and job
indices continue densely from the current queue length. -/
theorem queuePostLoop_tail (cfg : MigrationConfig) (post : InstagramArchivePost)
    (ai : Int) (nParts : Nat) (t : String) (ts : Int)
    (htitle : post.title = some t) (hts : post.creation_timestamp = some ts) :
    ∀ (parts : List (List InstagramArchiveMedia)) (i : Nat) (qs : QueueState) (root0 : Nat),
    i ≠ 0 → 1 ≤ qs.queue.length →
    ∃ qs', queuePostLoop cfg post ai nParts parts i (some root0)
        (some (qs.queue.length - 1)) qs = .ok qs' ∧
      qs'.queue.length = qs.queue.length + parts.length ∧
      qs'.queue.take qs.queue.length = qs.queue ∧
      ∀ (k : Nat) (hk : k < parts.length),
        ∃ (hlt : qs.queue.length + k < qs'.queue.length),
        qs'.queue[qs.queue.length + k].job_index = qs.queue.length + k ∧
        qs'.queue[qs.queue.length + k].embed = parts[k] ∧
        qs'.queue[qs.queue.length + k].root_index = some root0 ∧
        qs'.queue[qs.queue.length + k].parent_index = some (qs.queue.length + k - 1) := by
  intro parts
  induction parts with
  | nil =>
    intro i qs root0 _ _
    refine ⟨qs, rfl, by simp, List.take_length qs.queue, ?_⟩
    intro k hk
    exact absurd hk (Nat.not_lt_zero k)
  | cons partition rest ih =>
    intro i qs root0 hi0 hlen1
    obtain ⟨job, hmk, hjidx, hjembed, _, _⟩ :=
      mkMigrationJob_ok cfg post ai nParts i qs.queue.length partition t ts htitle hts
    have hlen2 : (MigrationQueue.append qs
        (linkedJob job root0 (qs.queue.length - 1))).queue.length =
        qs.queue.length + 1 := by
      simp [MigrationQueue.append]
    obtain ⟨qs', hrun, hlen', htake', hpos'⟩ :=
      ih (i + 1) (MigrationQueue.append qs (linkedJob job root0 (qs.queue.length - 1)))
        root0 (by omega) (by omega)
    rw [hlen2, Nat.add_sub_cancel] at hrun
    have hrun2 : queuePostLoop cfg post ai nParts rest (i + 1) (some root0)
        (some job.job_index)
        (MigrationQueue.append qs (linkedJob job root0 (qs.queue.length - 1))) =
        .ok qs' := by
      rw [hjidx]
      exact hrun
    have hunfold : queuePostLoop cfg post ai nParts (partition :: rest) i (some root0)
        (some (qs.queue.length - 1)) qs = .ok qs' := by
      simp only [queuePostLoop, hmk, except_bind_ok, if_neg hi0]
      exact hrun2
    refine ⟨qs', hunfold, ?_, ?_, ?_⟩
    · rw [hlen', hlen2, List.length_cons]
      omega
    · have h1 : qs'.queue.take (qs.queue.length + 1) =
          qs.queue ++ [linkedJob job root0 (qs.queue.length - 1)] := by
        rw [← hlen2, htake']
        simp [MigrationQueue.append]
      have h2 : qs'.queue.take qs.queue.length =
          (qs'.queue.take (qs.queue.length + 1)).take qs.queue.length := by
        rw [List.take_take]
        congr 1
        omega
      rw [h2, h1, List.take_append_of_le_length (Nat.le_refl _), List.take_length]
    · intro k hk
      cases k with
      | zero =>
        have hlt : qs.queue.length + 0 < qs'.queue.length := by
          rw [hlen', hlen2]
          omega
        refine ⟨hlt, ?_⟩
        have h1 : qs'.queue.take (qs.queue.length + 1) =
            qs.queue ++ [linkedJob job root0 (qs.queue.length - 1)] := by
          rw [← hlen2, htake']
          simp [MigrationQueue.append]
        have hlt1 : qs.queue.length < (qs'.queue.take (qs.queue.length + 1)).length := by
          rw [h1]
          simp
        have h2 : qs'.queue[qs.queue.length + 0] =
            linkedJob job root0 (qs.queue.length - 1) := by
          have e1 : (qs'.queue.take (qs.queue.length + 1))[qs.queue.length] =
              qs'.queue[qs.queue.length + 0] := by
            simp only [Nat.add_zero]
            exact List.getElem_take qs'.queue
          rw [← e1, List.getElem_of_eq h1 hlt1]
          exact List.getElem_concat_length _ _ _ rfl _
        rw [h2]
        refine ⟨hjidx, ?_, rfl, rfl⟩
        simpa [linkedJob] using hjembed
      | succ k =>
        obtain ⟨hlt0, hidx0, hemb0, hroot0, hpar0⟩ := hpos' k (by simpa using hk)
        have harith : (MigrationQueue.append qs
            (linkedJob job root0 (qs.queue.length - 1))).queue.length + k =
            qs.queue.length + (k + 1) := by
          rw [hlen2]
          omega
        simp only [harith] at hlt0 hidx0 hemb0 hroot0 hpar0
        refine ⟨hlt0, hidx0, ?_, hroot0, hpar0⟩
        rw [hemb0]
        simp

/-- The first job of a thread: explicit null reply links (engines.py 301-303). -/
def headJob (job : BlueSkyMigrationJob) : BlueSkyMigrationJob :=
  { job with root_index := none, parent_index := none }

/-- C3: for every post whose media partitions into `N ≥ 1` batches,
`queue_post` appends exactly `N` jobs in batch order with densely continuing
`job_index` values; the first job has null `root_index`/`parent_index`, and
every later job points its `root_index` at the first job's index and its
`parent_index` at the immediately preceding job's index — consequently
`root_index`/`parent_index` are either both null or both non-null and strictly
less than the job's own `job_index`. -/
theorem queue_post_thread_linkage (cfg : MigrationConfig) (qs : QueueState)
    (post : InstagramArchivePost) (ai : Int)
    (parts : List (List InstagramArchiveMedia)) (t : String) (ts : Int)
    (htitle : post.title = some t) (hts : post.creation_timestamp = some ts)
    (hparts : _partition_media cfg post.media cfg.media_strategy = .ok parts)
    (hne : parts ≠ []) :
    ∃ qs', queue_post cfg qs post ai = .ok qs' ∧
      qs'.queue.length = qs.queue.length + parts.length ∧
      qs'.queue.take qs.queue.length = qs.queue ∧
      (∀ (k : Nat) (hk : k < parts.length),
        ∃ (hlt : qs.queue.length + k < qs'.queue.length),
        qs'.queue[qs.queue.length + k].job_index = qs.queue.length + k ∧
        qs'.queue[qs.queue.length + k].embed = parts[k] ∧
        (k = 0 → qs'.queue[qs.queue.length + k].root_index = none ∧
          qs'.queue[qs.queue.length + k].parent_index = none) ∧
        (k ≠ 0 → qs'.queue[qs.queue.length + k].root_index = some qs.queue.length ∧
          qs'.queue[qs.queue.length + k].parent_index =
            some (qs.queue.length + k - 1))) ∧
      (∀ (k : Nat), k < parts.length →
        ∃ (hlt : qs.queue.length + k < qs'.queue.length),
        (qs'.queue[qs.queue.length + k].root_index = none ∧
          qs'.queue[qs.queue.length + k].parent_index = none) ∨
        (∃ r pnt, qs'.queue[qs.queue.length + k].root_index = some r ∧
          qs'.queue[qs.queue.length + k].parent_index = some pnt ∧
          r < qs'.queue[qs.queue.length + k].job_index ∧
          pnt < qs'.queue[qs.queue.length + k].job_index)) := by
  cases parts with
  | nil => exact absurd rfl hne
  | cons p0 prest =>
  obtain ⟨job, hmk, hjidx, hjembed, hjroot, hjparent⟩ :=
    mkMigrationJob_ok cfg post ai (p0 :: prest).length 0 qs.queue.length p0 t ts htitle hts
  have hlen2 : (MigrationQueue.append qs (headJob job)).queue.length =
      qs.queue.length + 1 := by
    simp [MigrationQueue.append]
  obtain ⟨qs', hrun, hlen', htake', hpos'⟩ :=
    queuePostLoop_tail cfg post ai (p0 :: prest).length t ts htitle hts prest 1
      (MigrationQueue.append qs (headJob job)) qs.queue.length
      (by omega) (by omega)
  rw [hlen2, Nat.add_sub_cancel] at hrun
  have hrun2 : queuePostLoop cfg post ai (p0 :: prest).length prest 1
      (some job.job_index) (some job.job_index)
      (MigrationQueue.append qs (headJob job)) = .ok qs' := by
    rw [hjidx]
    exact hrun
  have hunfold : queue_post cfg qs post ai = .ok qs' := by
    simp only [queue_post, hparts, except_bind_ok]
    rw [if_pos (by simp)]
    simp only [queuePostLoop, hmk, except_bind_ok, if_pos rfl]
    exact hrun2
  have h1 : qs'.queue.take (qs.queue.length + 1) = qs.queue ++ [headJob job] := by
    rw [← hlen2, htake']
    simp [MigrationQueue.append]
  have hhead : ∀ (hlt : qs.queue.length + 0 < qs'.queue.length),
      qs'.queue[qs.queue.length + 0] = headJob job := by
    intro hlt
    have hlt1 : qs.queue.length < (qs'.queue.take (qs.queue.length + 1)).length := by
      rw [h1]
      simp
    have e1 : (qs'.queue.take (qs.queue.length + 1))[qs.queue.length] =
        qs'.queue[qs.queue.length + 0] := by
      simp only [Nat.add_zero]
      exact List.getElem_take qs'.queue
    rw [← e1, List.getElem_of_eq h1 hlt1]
    exact List.getElem_concat_length _ _ _ rfl _
  have hmain : ∀ (k : Nat) (hk : k < (p0 :: prest).length),
      ∃ (hlt : qs.queue.length + k < qs'.queue.length),
      qs'.queue[qs.queue.length + k].job_index = qs.queue.length + k ∧
      qs'.queue[qs.queue.length + k].embed = (p0 :: prest)[k] ∧
      (k = 0 → qs'.queue[qs.queue.length + k].root_index = none ∧
        qs'.queue[qs.queue.length + k].parent_index = none) ∧
      (k ≠ 0 → qs'.queue[qs.queue.length + k].root_index = some qs.queue.length ∧
        qs'.queue[qs.queue.length + k].parent_index =
          some (qs.queue.length + k - 1)) := by
    intro k hk
    cases k with
    | zero =>
      have hlt : qs.queue.length + 0 < qs'.queue.length := by
        rw [hlen', hlen2]
        omega
      refine ⟨hlt, ?_⟩
      rw [hhead hlt]
      exact ⟨hjidx, by simpa [headJob] using hjembed,
        fun _ => ⟨rfl, rfl⟩, fun h => absurd rfl h⟩
    | succ k =>
      obtain ⟨hlt0, hidx0, hemb0, hroot0, hpar0⟩ := hpos' k (by simpa using hk)
      have harith : (MigrationQueue.append qs (headJob job)).queue.length + k =
          qs.queue.length + (k + 1) := by
        rw [hlen2]
        omega
      simp only [harith] at hlt0 hidx0 hemb0 hroot0 hpar0
      refine ⟨hlt0, hidx0, ?_, fun h => absurd h (Nat.succ_ne_zero k), fun _ => ⟨hroot0, hpar0⟩⟩
      rw [hemb0]
      simp
  refine ⟨qs', hunfold, by rw [hlen', hlen2, List.length_cons]; omega, ?_, hmain, ?_⟩
  · have h2 : qs'.queue.take qs.queue.length =
        (qs'.queue.take (qs.queue.length + 1)).take qs.queue.length := by
      rw [List.take_take]
      congr 1
      omega
    rw [h2, h1, List.take_append_of_le_length (Nat.le_refl _), List.take_length]
  · intro k hk
    obtain ⟨hlt, hidx, hemb, hzero, hsucc⟩ := hmain k hk
    refine ⟨hlt, ?_⟩
    cases k with
    | zero => exact Or.inl (hzero rfl)
    | succ k =>
      obtain ⟨hr, hp⟩ := hsucc (Nat.succ_ne_zero k)
      refine Or.inr ⟨qs.queue.length, qs.queue.length + (k + 1) - 1, hr, hp, ?_, ?_⟩
      · rw [hidx]
        omega
      · rw [hidx]
        omega

/-- A post with five images: partitions into a batch of four and a batch of
one under the default `max_images_per_post = 4`. -/
def samplePost5 : InstagramArchivePost :=
  { media := [{ uri := "a.jpg" }, { uri := "b.jpg" }, { uri := "c.jpg" },
              { uri := "d.jpg" }, { uri := "e.jpg" }],
    title := some "T", creation_timestamp := some 100 }

/-- C3 witness: queueing the five-image post from an empty queue creates two
linked jobs. -/
theorem queue_post_thread_linkage_witness :
    samplePost5.title = some "T" ∧ samplePost5.creation_timestamp = some 100 ∧
    ∃ qs', queue_post sampleConfigV {} samplePost5 7 = .ok qs' ∧
      qs'.queue.length = ({} : QueueState).queue.length + 2 := by
  refine ⟨rfl, rfl, ?_⟩
  obtain ⟨qs', hrun, hlen, -, -, -⟩ :=
    queue_post_thread_linkage sampleConfigV {} samplePost5 7
      [[{ uri := "a.jpg" }, { uri := "b.jpg" }, { uri := "c.jpg" }, { uri := "d.jpg" }],
       [{ uri := "e.jpg" }]] "T" 100 rfl rfl rfl (by simp)
  exact ⟨qs', hrun, hlen⟩

/-! ## C2: partitioner postcondition -/

/-- `partitionStep_video_open` specialized to a configuration that does carry
`max_videos_per_post = v`. -/
theorem partitionStep_video_open_some (cfg : MigrationConfig) (st : PartState)
    (e : InstagramArchiveMedia) (v : Nat) (h : isMp4 e = true)
    (hc : st.ctype = none ∨ st.ctype = some true)
    (hv : cfg.max_videos_per_post = some v) :
    partitionStep cfg st e = .ok
      (if st.current.length < v then
        { partitions := st.partitions, current := st.current ++ [e], ctype := some true }
      else
        { partitions := st.partitions ++ [st.current], current := [e], ctype := some true }) := by
  rw [partitionStep_video_open cfg st e h hc, hv]

/-- The partitioning loop invariant (for a configuration carrying
`max_videos_per_post = v`): every closed batch is non-empty, single-kind and
within its kind's limit, and the open batch matches `current_partition_type`
likewise — empty exactly when the type is still unset. -/
def stateOK (cfg : MigrationConfig) (v : Nat) (st : PartState) : Prop :=
  (∀ b ∈ st.partitions, b ≠ [] ∧ ∃ k, (∀ e ∈ b, isMp4 e = k) ∧
    b.length ≤ (if k then v else cfg.max_images_per_post)) ∧
  (match st.ctype with
   | none => st.current = []
   | some k => st.current ≠ [] ∧ (∀ e ∈ st.current, isMp4 e = k) ∧
      st.current.length ≤ (if k then v else cfg.max_images_per_post))

/-- One partitioning step preserves the invariant and extends the flattened
content by exactly the processed entry (given positive limits). -/
theorem partitionStep_inv (cfg : MigrationConfig) (v : Nat)
    (hv : cfg.max_videos_per_post = some v) (hv1 : 1 ≤ v)
    (hi1 : 1 ≤ cfg.max_images_per_post) (st : PartState) (e : InstagramArchiveMedia)
    (hok : stateOK cfg v st) :
    ∃ st1, partitionStep cfg st e = .ok st1 ∧ stateOK cfg v st1 ∧
      st1.partitions.flatten ++ st1.current =
        (st.partitions.flatten ++ st.current) ++ [e] := by
  cases hct : st.ctype with
  | none =>
    rw [stateOK, hct] at hok
    obtain ⟨hparts, hcur⟩ := hok
    have hcur' : st.current = [] := hcur
    by_cases hmp4 : isMp4 e
    · rw [partitionStep_video_open_some cfg st e v hmp4 (Or.inl hct) hv]
      rw [if_pos (by rw [hcur']; simpa using hv1)]
      refine ⟨_, rfl, ⟨hparts, ?_⟩, by simp⟩
      show _ ≠ _ ∧ _
      rw [hcur']
      refine ⟨by simp, ?_, by simpa using hv1⟩
      intro x hx
      rcases List.mem_singleton.mp (by simpa using hx) with rfl
      exact hmp4
    · have hmp4' : isMp4 e = false := by simpa using hmp4
      rw [partitionStep_image cfg st e hmp4', hct]
      rw [if_pos (by rw [hcur']; simpa using hi1)]
      refine ⟨_, rfl, ⟨hparts, ?_⟩, by simp⟩
      show _ ≠ _ ∧ _
      rw [hcur']
      refine ⟨by simp, ?_, by simpa using hi1⟩
      intro x hx
      rcases List.mem_singleton.mp (by simpa using hx) with rfl
      exact hmp4'
  | some k =>
    rw [stateOK, hct] at hok
    obtain ⟨hparts, hcur⟩ := hok
    have hcur' : st.current ≠ [] ∧ (∀ x ∈ st.current, isMp4 x = k) ∧
        st.current.length ≤ (if k then v else cfg.max_images_per_post) := hcur
    obtain ⟨hne, hkind, hlen⟩ := hcur'
    have hclosed : st.current ≠ [] ∧ ∃ k', (∀ x ∈ st.current, isMp4 x = k') ∧
        st.current.length ≤ (if k' then v else cfg.max_images_per_post) :=
      ⟨hne, k, hkind, hlen⟩
    cases k with
    | true =>
      by_cases hmp4 : isMp4 e
      · rw [partitionStep_video_open_some cfg st e v hmp4 (Or.inr hct) hv]
        by_cases hl : st.current.length < v
        · rw [if_pos hl]
          refine ⟨_, rfl, ⟨hparts, ?_⟩, by simp⟩
          refine ⟨by simp, ?_, by simp; omega⟩
          intro x hx
          rcases List.mem_append.mp hx with hx | hx
          · exact hkind x hx
          · rcases List.mem_singleton.mp hx with rfl
            exact hmp4
        · rw [if_neg hl]
          refine ⟨_, rfl, ⟨?_, ?_⟩, by simp⟩
          · intro b hb
            rcases List.mem_append.mp hb with hb | hb
            · exact hparts b hb
            · rcases List.mem_singleton.mp hb with rfl
              exact hclosed
          · refine ⟨by simp, ?_, by simpa using hv1⟩
            intro x hx
            rcases List.mem_singleton.mp (by simpa using hx) with rfl
            exact hmp4
      · have hmp4' : isMp4 e = false := by simpa using hmp4
        rw [partitionStep_image cfg st e hmp4', hct]
        refine ⟨_, rfl, ⟨?_, ?_⟩, by simp⟩
        · intro b hb
          rcases List.mem_append.mp hb with hb | hb
          · exact hparts b hb
          · rcases List.mem_singleton.mp hb with rfl
            exact hclosed
        · refine ⟨by simp, ?_, by simpa using hi1⟩
          intro x hx
          rcases List.mem_singleton.mp (by simpa using hx) with rfl
          exact hmp4'
    | false =>
      by_cases hmp4 : isMp4 e
      · rw [partitionStep_video_switch cfg st e hmp4 hct]
        refine ⟨_, rfl, ⟨?_, ?_⟩, by simp⟩
        · intro b hb
          rcases List.mem_append.mp hb with hb | hb
          · exact hparts b hb
          · rcases List.mem_singleton.mp hb with rfl
            exact hclosed
        · refine ⟨by simp, ?_, by simpa using hv1⟩
          intro x hx
          rcases List.mem_singleton.mp (by simpa using hx) with rfl
          exact hmp4
      · have hmp4' : isMp4 e = false := by simpa using hmp4
        rw [partitionStep_image cfg st e hmp4', hct]
        by_cases hl : st.current.length < cfg.max_images_per_post
        · rw [if_pos hl]
          refine ⟨_, rfl, ⟨hparts, ?_⟩, by simp⟩
          refine ⟨by simp, ?_, by simp; omega⟩
          intro x hx
          rcases List.mem_append.mp hx with hx | hx
          · exact hkind x hx
          · rcases List.mem_singleton.mp hx with rfl
            exact hmp4'
        · rw [if_neg hl]
          refine ⟨_, rfl, ⟨?_, ?_⟩, by simp⟩
          · intro b hb
            rcases List.mem_append.mp hb with hb | hb
            · exact hparts b hb
            · rcases List.mem_singleton.mp hb with rfl
              exact hclosed
          · refine ⟨by simp, ?_, by simpa using hi1⟩
            intro x hx
            rcases List.mem_singleton.mp (by simpa using hx) with rfl
            exact hmp4'

/-- The partitioning fold succeeds from any invariant-satisfying state and
its flattened content is the state's content followed by the processed
media, preserving the invariant. -/
theorem partitionFold_ok (cfg : MigrationConfig) (v : Nat)
    (hv : cfg.max_videos_per_post = some v) (hv1 : 1 ≤ v)
    (hi1 : 1 ≤ cfg.max_images_per_post) :
    ∀ (media : List InstagramArchiveMedia) (st : PartState),
    stateOK cfg v st →
    ∃ st', media.foldlM (partitionStep cfg) st = .ok st' ∧ stateOK cfg v st' ∧
      st'.partitions.flatten ++ st'.current =
        (st.partitions.flatten ++ st.current) ++ media := by
  intro media
  induction media with
  | nil =>
    intro st hok
    exact ⟨st, rfl, hok, by simp⟩
  | cons e rest ih =>
    intro st hok
    obtain ⟨st1, hstep, hok1, hjoin1⟩ := partitionStep_inv cfg v hv hv1 hi1 st e hok
    obtain ⟨st', hfold, hok', hjoin'⟩ := ih st1 hok1
    refine ⟨st', ?_, hok', ?_⟩
    · rw [List.foldlM_cons, hstep, except_bind_ok]
      exact hfold
    · rw [hjoin', hjoin1]
      simp

/-- C2: for every media list and strategy, given a configuration with
`max_videos_per_post = v ≥ 1` and `max_images_per_post ≥ 1`,
`_partition_media` returns batches such that every batch is non-empty, holds
media of a single kind (video iff the uri ends in `.mp4`) and stays within
its kind's configured limit; the concatenation of all batches is exactly the
input in input order for the `"ordered"` strategy and the stable
images-before-videos reordering of the input for `"videolast"`; and the
output is non-empty whenever the input is. -/
theorem partition_media_postcondition (cfg : MigrationConfig)
    (media : List InstagramArchiveMedia) (strategy : String) (v : Nat)
    (hv : cfg.max_videos_per_post = some v) (hv1 : 1 ≤ v)
    (hi1 : 1 ≤ cfg.max_images_per_post) :
    ∃ parts, _partition_media cfg media strategy = .ok parts ∧
      (∀ b ∈ parts, b ≠ [] ∧ ∃ k, (∀ e ∈ b, isMp4 e = k) ∧
        b.length ≤ (if k then v else cfg.max_images_per_post)) ∧
      parts.flatten = (if strategy = "videolast" then videolastReorder media else media) ∧
      (media ≠ [] → parts ≠ []) := by
  obtain ⟨st', hfold, hok', hjoin⟩ := partitionFold_ok cfg v hv hv1 hi1
    (if strategy = "videolast" then videolastReorder media else media) {}
    (by constructor
        · intro b hb
          exact absurd hb (List.not_mem_nil b)
        · exact rfl)
  obtain ⟨hparts', hcur'⟩ := hok'
  have hjoin2 : st'.partitions.flatten ++ st'.current =
      (if strategy = "videolast" then videolastReorder media else media) := by
    rw [hjoin]
    simp
  refine ⟨if st'.current.isEmpty then st'.partitions else st'.partitions ++ [st'.current],
    ?_, ?_, ?_, ?_⟩
  · simp only [_partition_media]
    rw [hfold, except_bind_ok]
    exact rfl
  · intro b hb
    by_cases hce : st'.current.isEmpty
    · rw [if_pos hce] at hb
      exact hparts' b hb
    · rw [if_neg hce] at hb
      rcases List.mem_append.mp hb with hb | hb
      · exact hparts' b hb
      · rcases List.mem_singleton.mp hb with rfl
        cases hct : st'.ctype with
        | none =>
          rw [hct] at hcur'
          have : st'.current = [] := hcur'
          rw [this] at hce
          exact absurd rfl hce
        | some k =>
          rw [hct] at hcur'
          have hc : st'.current ≠ [] ∧ (∀ x ∈ st'.current, isMp4 x = k) ∧
              st'.current.length ≤ (if k then v else cfg.max_images_per_post) := hcur'
          exact ⟨hc.1, k, hc.2.1, hc.2.2⟩
  · by_cases hce : st'.current.isEmpty
    · rw [if_pos hce]
      have hcnil : st'.current = [] := List.isEmpty_iff.mp hce
      rw [← hjoin2, hcnil]
      simp
    · rw [if_neg hce, List.flatten_append]
      rw [← hjoin2]
      simp
  · intro hne
    have hne' : (if strategy = "videolast" then videolastReorder media else media) ≠ [] := by
      by_cases hs : strategy = "videolast"
      · rw [if_pos hs]
        cases media with
        | nil => exact absurd rfl hne
        | cons m ms =>
          apply List.ne_nil_of_mem (a := m)
          unfold videolastReorder
          by_cases hm : isMp4 m
          · exact List.mem_append.mpr (Or.inr (List.mem_filter.mpr
              ⟨List.mem_cons_self m ms, by simpa using hm⟩))
          · exact List.mem_append.mpr (Or.inl (List.mem_filter.mpr
              ⟨List.mem_cons_self m ms, by simpa using hm⟩))
      · rw [if_neg hs]
        exact hne
    intro hpe
    by_cases hce : st'.current.isEmpty
    · rw [if_pos hce] at hpe
      have hcnil : st'.current = [] := List.isEmpty_iff.mp hce
      rw [hpe, hcnil] at hjoin2
      exact hne' (by simpa using hjoin2.symm)
    · rw [if_neg hce] at hpe
      exact absurd (List.append_eq_nil.mp hpe).2 (by simp)

/-- C2 witness: the postcondition applied to a mixed image/video list under
the videos-last strategy with `max_videos_per_post = 1`. -/
theorem partition_media_postcondition_witness :
    (sampleConfigV.max_videos_per_post = some 1 ∧ (1 : Nat) ≤ 1 ∧
      1 ≤ sampleConfigV.max_images_per_post) ∧
    ∃ parts, _partition_media sampleConfigV [sampleImage, sampleVideo] "videolast" =
        .ok parts ∧
      parts.flatten = (if ("videolast" : String) = "videolast" then
        videolastReorder [sampleImage, sampleVideo] else [sampleImage, sampleVideo]) := by
  refine ⟨⟨rfl, by decide, by decide⟩, ?_⟩
  obtain ⟨parts, hok, -, hflat, -⟩ :=
    partition_media_postcondition sampleConfigV [sampleImage, sampleVideo] "videolast" 1
      rfl (by decide) (by decide)
  exact ⟨parts, hok, hflat⟩
